import Mathlib

/-!
Verification of the stock-flow settings / access-control / invitation logic.

The definitions below are a shallow embedding of the TypeScript source:
  * `src/lib/constants/table-columns.ts` — table/column constants;
  * `src/app/services/settings.ts` (in `collections/Presentations.ts` bundle) —
    `getSettings`, `updateSettings`, `updateTableColumns`, `getVisibleColumns`,
    `isColumnVisible`, `getItemsPerPage`, `getAllColumnsConfig`;
  * settings action layer (`updateTableColumnsSchema`, `validateColumnsForTable`,
    `updateTableColumnsAction`);
  * `collections/Products.ts` / `collections/Users.ts` access predicates;
  * invitation service (`validateInvitation`, `markInvitationAsUsed`) and the
    `registerUser` action, plus the `Invitations.beforeValidate` hook.

The Payload document store is modelled as a list of documents; `payload.find`
with `limit: 1` is `List.find?`, `payload.create` on a collection with a unique
field checks the uniqueness constraint, and `payload.update` by id maps over
the list.
-/

namespace StockFlow

/-- The six table names of `TABLE_COLUMNS` (`table-columns.ts`). -/
inductive TableName where
  | products
  | clients
  | sales
  | assignments
  | history
  | sellers
deriving DecidableEq, Repr

/-- Constant `TABLE_COLUMNS` from `table-columns.ts`: the available columns per table. -/
def TABLE_COLUMNS : TableName → List String
  | .products => ["name", "code", "brand", "category", "quality", "stock", "price"]
  | .clients => ["name", "cuit", "phone", "email", "address"]
  | .sales => ["date", "client", "total", "paymentMethod", "status", "items"]
  | .assignments => ["date", "seller", "status", "items", "notes"]
  | .history => ["date", "product", "type", "quantity", "reason", "reference"]
  | .sellers => ["name", "email", "phone", "isActive", "createdAt"]

/-- Constant `DEFAULT_COLUMNS` from `table-columns.ts`: the default visible columns. -/
def DEFAULT_COLUMNS : TableName → List String
  | .products => ["name", "code", "stock", "price"]
  | .clients => ["name", "phone", "email"]
  | .sales => ["date", "client", "total", "status"]
  | .assignments => ["date", "seller", "status"]
  | .history => ["date", "product", "type", "quantity"]
  | .sellers => ["name", "email", "isActive"]

/-- Constant `ITEMS_PER_PAGE_OPTIONS` from `table-columns.ts`. -/
def ITEMS_PER_PAGE_OPTIONS : List Nat := [10, 25, 50, 100]

/-- Constant `DEFAULT_ITEMS_PER_PAGE` from `table-columns.ts`. -/
def DEFAULT_ITEMS_PER_PAGE : Nat := 10

/-- One element of a stored columns array: `{ column: string }`. -/
structure ColumnItem where
  column : String
deriving DecidableEq, Repr

/-- A `settings` collection document (`collections/Settings.ts`): one per user,
six optional column arrays and an optional `itemsPerPage` select value. -/
structure Setting where
  id : Nat
  user : Nat
  productsColumns : Option (List ColumnItem) := none
  clientsColumns : Option (List ColumnItem) := none
  salesColumns : Option (List ColumnItem) := none
  assignmentsColumns : Option (List ColumnItem) := none
  historyColumns : Option (List ColumnItem) := none
  sellersColumns : Option (List ColumnItem) := none
  itemsPerPage : Option String := none
deriving DecidableEq, Repr

/-- The dynamic field access `settings[fieldName]` for `fieldName = tableName + "Columns"`
(the dynamic field access in `getVisibleColumns` / `updateTableColumns`). -/
def columnsOf (s : Setting) : TableName → Option (List ColumnItem)
  | .products => s.productsColumns
  | .clients => s.clientsColumns
  | .sales => s.salesColumns
  | .assignments => s.assignmentsColumns
  | .history => s.historyColumns
  | .sellers => s.sellersColumns

/-- Function `getVisibleColumns(settings, tableName)` from the settings service:
the stored list mapped to strings, or `DEFAULT_COLUMNS[tableName]` when the
record is null or the stored array is absent or empty. -/
def getVisibleColumns (settings : Option Setting) (tableName : TableName) : List String :=
  match settings with
  | none => DEFAULT_COLUMNS tableName
  | some s =>
    match columnsOf s tableName with
    | none => DEFAULT_COLUMNS tableName
    | some arr =>
      if arr.isEmpty then DEFAULT_COLUMNS tableName
      else arr.map (fun item => item.column)

/-- Function `isColumnVisible(settings, tableName, columnKey)` from the settings service. -/
def isColumnVisible (settings : Option Setting) (tableName : TableName) (columnKey : String) : Bool :=
  (getVisibleColumns settings tableName).contains columnKey

/-- The JavaScript `parseInt(str, 10)`: the value of the leading run of decimal digits, or
nothing (NaN) when the string does not start with a digit. -/
def parseInt10 (s : String) : Option Nat :=
  let digits := s.data.takeWhile Char.isDigit
  if digits.isEmpty then none
  else some (digits.foldl (fun n c => n * 10 + (c.toNat - 48)) 0)

/-- Function `getItemsPerPage(settings)` from the settings service: parse the stored
string; fall back to the default when absent or not one of the options. -/
def getItemsPerPage (settings : Option Setting) : Nat :=
  match settings with
  | none => DEFAULT_ITEMS_PER_PAGE
  | some s =>
    match s.itemsPerPage with
    | none => DEFAULT_ITEMS_PER_PAGE
    | some str =>
      let value := (parseInt10 str).getD 0
      if ITEMS_PER_PAGE_OPTIONS.contains value then value else DEFAULT_ITEMS_PER_PAGE

/-- The result of `getAllColumnsConfig`: one visible-column list per table. -/
structure ColumnsConfig where
  products : List String
  clients : List String
  sales : List String
  assignments : List String
  history : List String
  sellers : List String
deriving DecidableEq, Repr

/-- Function `getAllColumnsConfig(settings)` from the settings service. -/
def getAllColumnsConfig (settings : Option Setting) : ColumnsConfig where
  products := getVisibleColumns settings .products
  clients := getVisibleColumns settings .clients
  sales := getVisibleColumns settings .sales
  assignments := getVisibleColumns settings .assignments
  history := getVisibleColumns settings .history
  sellers := getVisibleColumns settings .sellers

/-! ### The settings document store

`payload.find({ collection: 'settings', where: { user: { equals: userId } }, limit: 1 })`
returns the first matching document; `payload.create` respects the
`unique: true` constraint on the `user` field (`collections/Settings.ts`);
`payload.update({ id })` rewrites the document with that id. -/

/-- The error `payload.create` raises when the unique constraint on
`Settings.user` is violated. -/
inductive CreateError where
  | uniqueViolation
deriving DecidableEq, Repr

/-- The call `payload.find` on the settings collection with `user equals userId`, `limit 1`. -/
def findSettings (store : List Setting) (userId : Nat) : Option Setting :=
  store.find? (fun s => s.user == userId)

/-- The default-seeded settings document `getSettings` creates on first access:
each table's columns are `DEFAULT_COLUMNS` wrapped as `{ column }` items and
`itemsPerPage` is `DEFAULT_ITEMS_PER_PAGE.toString()`. -/
def defaultSettingsRecord (userId newId : Nat) : Setting where
  id := newId
  user := userId
  productsColumns := some ((DEFAULT_COLUMNS .products).map ColumnItem.mk)
  clientsColumns := some ((DEFAULT_COLUMNS .clients).map ColumnItem.mk)
  salesColumns := some ((DEFAULT_COLUMNS .sales).map ColumnItem.mk)
  assignmentsColumns := some ((DEFAULT_COLUMNS .assignments).map ColumnItem.mk)
  historyColumns := some ((DEFAULT_COLUMNS .history).map ColumnItem.mk)
  sellersColumns := some ((DEFAULT_COLUMNS .sellers).map ColumnItem.mk)
  itemsPerPage := some (toString DEFAULT_ITEMS_PER_PAGE)

/-- The call `payload.create` on the settings collection: fails with a unique-constraint
violation when a document for the same user already exists, otherwise appends
the default-seeded document. -/
def createSettings (store : List Setting) (userId newId : Nat) :
    Except CreateError (Setting × List Setting) :=
  if store.any (fun s => s.user == userId) then .error .uniqueViolation
  else .ok (defaultSettingsRecord userId newId, store ++ [defaultSettingsRecord userId newId])

/-- Function `getSettings(userId)` run sequentially on one store: find, else create,
and on a create error retry the find before re-throwing. -/
def getSettings (store : List Setting) (userId newId : Nat) :
    Except CreateError (Setting × List Setting) :=
  match findSettings store userId with
  | some doc => .ok (doc, store)
  | none =>
    match createSettings store userId newId with
    | .ok (doc, store2) => .ok (doc, store2)
    | .error e =>
      match findSettings store userId with
      | some doc => .ok (doc, store)
      | none => .error e

/-- Function `getSettings(userId)` with an interleaved concurrent writer: `s0` is the
store snapshot at the initial find, `s1` at the create attempt, `s2` at the
retry find inside the catch block. Returns the document the call yields. -/
def getSettingsRace (s0 s1 s2 : List Setting) (userId newId : Nat) :
    Except CreateError Setting :=
  match findSettings s0 userId with
  | some doc => .ok doc
  | none =>
    match createSettings s1 userId newId with
    | .ok (doc, _) => .ok doc
    | .error e =>
      match findSettings s2 userId with
      | some doc => .ok doc
      | none => .error e

/-- The call `payload.update` by document id: rewrite every document carrying the id. -/
def payloadUpdate (store : List Setting) (id : Nat) (patch : Setting → Setting) :
    List Setting :=
  store.map (fun s => if s.id == id then patch s else s)

/-- The update payload of `updateSettingsSchema`: each field optional, absent
fields left untouched (the `user` field is not part of the schema). -/
structure SettingsPatch where
  productsColumns : Option (List ColumnItem) := none
  clientsColumns : Option (List ColumnItem) := none
  salesColumns : Option (List ColumnItem) := none
  assignmentsColumns : Option (List ColumnItem) := none
  historyColumns : Option (List ColumnItem) := none
  sellersColumns : Option (List ColumnItem) := none
  itemsPerPage : Option String := none
deriving DecidableEq, Repr

/-- Apply a partial update to a settings document: present fields replace,
absent fields keep the stored value. -/
def applyPatch (p : SettingsPatch) (s : Setting) : Setting where
  id := s.id
  user := s.user
  productsColumns := p.productsColumns.orElse fun _ => s.productsColumns
  clientsColumns := p.clientsColumns.orElse fun _ => s.clientsColumns
  salesColumns := p.salesColumns.orElse fun _ => s.salesColumns
  assignmentsColumns := p.assignmentsColumns.orElse fun _ => s.assignmentsColumns
  historyColumns := p.historyColumns.orElse fun _ => s.historyColumns
  sellersColumns := p.sellersColumns.orElse fun _ => s.sellersColumns
  itemsPerPage := p.itemsPerPage.orElse fun _ => s.itemsPerPage

/-- Function `updateSettings(userId, data)`: fetch (or lazily create) the settings
document, then update it by id. -/
def updateSettings (store : List Setting) (userId newId : Nat) (data : SettingsPatch) :
    Except CreateError (Setting × List Setting) :=
  match getSettings store userId newId with
  | .error e => .error e
  | .ok (s, store2) =>
    .ok (applyPatch data s, payloadUpdate store2 s.id (applyPatch data))

/-- Overwrite exactly one table's columns field on a settings document
(the computed `fieldName = tableName + "Columns"` write in `updateTableColumns`). -/
def setTableColumnsOn (s : Setting) (t : TableName) (arr : List ColumnItem) : Setting :=
  match t with
  | .products => { s with productsColumns := some arr }
  | .clients => { s with clientsColumns := some arr }
  | .sales => { s with salesColumns := some arr }
  | .assignments => { s with assignmentsColumns := some arr }
  | .history => { s with historyColumns := some arr }
  | .sellers => { s with sellersColumns := some arr }

/-- Function `updateTableColumns(userId, tableName, columns)`: fetch (or lazily create)
the settings document, wrap the columns as `{ column }` items and write the
single `tableName + "Columns"` field by id. -/
def updateTableColumns (store : List Setting) (userId newId : Nat)
    (tableName : TableName) (columns : List String) :
    Except CreateError (Setting × List Setting) :=
  match getSettings store userId newId with
  | .error e => .error e
  | .ok (s, store2) =>
    let arr := columns.map ColumnItem.mk
    .ok (setTableColumnsOn s tableName arr,
      payloadUpdate store2 s.id (fun d => setTableColumnsOn d tableName arr))

/-! ### The settings action layer (`schemas.ts` / `actions.ts`) -/

/-- The parsed input of `updateTableColumnsSchema`: a table name from the
six-value enum and a list of column strings. -/
structure UpdateTableColumnsInput where
  tableName : TableName
  columns : List String
deriving DecidableEq, Repr

/-- The zod refinement `columns: z.array(z.string()).min(1, ...)`. -/
def updateTableColumnsSchemaOk (input : UpdateTableColumnsInput) : Bool :=
  decide (1 ≤ input.columns.length)

/-- Function `validateColumnsForTable(tableName, columns)` from `schemas.ts`:
every requested column is one of `TABLE_COLUMNS[tableName]`. -/
def validateColumnsForTable (tableName : TableName) (columns : List String) : Bool :=
  columns.all (fun col => (TABLE_COLUMNS tableName).contains col)

/-- The failure modes of `updateTableColumnsAction`. -/
inductive ActionError where
  | validationFailed
  | notAuthenticated
  | invalidColumnsForTable
  | serviceError (e : CreateError)
deriving DecidableEq, Repr

/-- Action `updateTableColumnsAction`: the schema check runs first (next-safe-action),
then the authentication check, then `validateColumnsForTable`, and only then
the `updateTableColumns` service write. -/
def updateTableColumnsAction (store : List Setting) (currentUser : Option Nat)
    (newId : Nat) (input : UpdateTableColumnsInput) :
    Except ActionError (Setting × List Setting) :=
  if updateTableColumnsSchemaOk input then
    match currentUser with
    | none => .error .notAuthenticated
    | some uid =>
      if validateColumnsForTable input.tableName input.columns then
        match updateTableColumns store uid newId input.tableName input.columns with
        | .ok r => .ok r
        | .error e => .error (.serviceError e)
      else .error .invalidColumnsForTable
  else .error .validationFailed

/-- The store after the action: unchanged whenever the action errored. -/
def storeAfterAction (store : List Setting) (currentUser : Option Nat)
    (newId : Nat) (input : UpdateTableColumnsInput) : List Setting :=
  match updateTableColumnsAction store currentUser newId input with
  | .ok (_, store2) => store2
  | .error _ => store

/-! ### Roles and collection read access
(`collections/Products.ts`, `collections/Users.ts`) -/

/-- The three user roles (`Users.fields.role` select options). -/
inductive Role where
  | admin
  | owner
  | seller
deriving DecidableEq, Repr

/-- A `users` collection document: `owner` is the linking relationship a
seller carries to the owner who invited them. -/
structure User where
  id : Nat
  name : String
  email : String
  password : String
  role : Role
  owner : Option Nat := none
deriving DecidableEq, Repr

/-- A `products` collection document; `owner` is a required relationship to a
user. -/
structure Product where
  id : Nat
  name : String
  code : String
  owner : Nat
deriving DecidableEq, Repr

/-- A Payload access-control result for reads: `true` (see everything),
`false` (see nothing), or a `Where` filter evaluated per record. -/
inductive ReadAccess (α : Type) where
  | allowAll
  | denyAll
  | queryFilter (p : α → Bool)

/-- Whether a read-access result lets a given record be returned. -/
def ReadAccess.allows {α : Type} : ReadAccess α → α → Bool
  | .allowAll, _ => true
  | .denyAll, _ => false
  | .queryFilter p, r => p r

/-- Predicate `Products.access.read`: unauthenticated denied; admin sees all; any other
authenticated user gets the filter `owner equals user.id`. -/
def productsReadAccess (user : Option User) : ReadAccess Product :=
  match user with
  | none => .denyAll
  | some u =>
    if u.role = .admin then .allowAll
    else .queryFilter (fun p => p.owner == u.id)

/-- Predicate `Users.access.read`: admin sees all; an owner sees themselves and the
users whose `owner` field equals their id; anyone else sees only themselves. -/
def usersReadAccess (user : Option User) : ReadAccess User :=
  match user with
  | none => .denyAll
  | some u =>
    if u.role = .admin then .allowAll
    else if u.role = .owner then
      .queryFilter (fun r => r.id == u.id || r.owner == some u.id)
    else .queryFilter (fun r => r.id == u.id)

/-! ### Invitations and registration
(`collections/Invitations` config, invitation service, `registerUser` action) -/

/-- The two permitted invitation roles (`Invitations.fields.role` options). -/
inductive InviteRole where
  | owner
  | seller
deriving DecidableEq, Repr

/-- The user role an invitation role maps to at registration. -/
def roleOfInvite : InviteRole → Role
  | .owner => .owner
  | .seller => .seller

/-- An `invitations` collection document; timestamps are epoch milliseconds. -/
structure Invitation where
  id : Nat
  email : String
  role : InviteRole
  token : String
  createdBy : Option Nat := none
  expiresAt : Nat
  usedAt : Option Nat := none
deriving DecidableEq, Repr

/-- Function `validateInvitation(token)`: find the first invitation whose token matches,
whose `usedAt` is unset, and whose `expiresAt` is strictly in the future. -/
def validateInvitation (invitations : List Invitation) (now : Nat) (token : String) :
    Option Invitation :=
  invitations.find? (fun i => i.token == token && i.usedAt.isNone && decide (now < i.expiresAt))

/-- Function `markInvitationAsUsed(id)`: set `usedAt` to the current time on the
invitation with that id. -/
def markInvitationAsUsed (invitations : List Invitation) (id now : Nat) :
    List Invitation :=
  invitations.map (fun i => if i.id == id then { i with usedAt := some now } else i)

/-- The hook operation discriminator passed to Payload hooks. -/
inductive HookOperation where
  | create
  | update
deriving DecidableEq, Repr

/-- The invitation data visible to the `beforeValidate` hook. -/
structure InvitationDraft where
  email : String
  role : InviteRole
  token : Option String := none
  expiresAt : Option Nat := none
deriving DecidableEq, Repr

/-- The `Invitations.hooks.beforeValidate` hook: on create, set the token to
the server-generated random value and the expiry to now plus 7 days. -/
def invitationBeforeValidate (now : Nat) (generatedToken : String)
    (op : HookOperation) (data : InvitationDraft) : InvitationDraft :=
  match op with
  | .create =>
    { data with
      token := some generatedToken
      expiresAt := some (now + 7 * 24 * 60 * 60 * 1000) }
  | .update => data

/-- The user-facing failure messages of the registration flow. -/
inductive RegisterError where
  | invalidInvitation
  | emailMismatch
  | emailTaken
deriving DecidableEq, Repr

/-- Function `createUser(data)` from the users service: reject a duplicate email,
otherwise append the new user document. -/
def createUser (users : List User) (newId : Nat) (name email password : String)
    (role : Role) (ownerId : Option Nat) : Except RegisterError (User × List User) :=
  if users.any (fun u => u.email == email) then .error .emailTaken
  else
    let u : User := { id := newId, name, email, password, role, owner := ownerId }
    .ok (u, users ++ [u])

/-- The parsed input of the registration form schema. -/
structure RegisterInput where
  name : String
  email : String
  password : String
  token : String
deriving DecidableEq, Repr

/-- What a `registerUser` call reports back. -/
inductive RegisterOutcome where
  | success
  | failure (e : RegisterError)
deriving DecidableEq, Repr

/-- The documents the registration flow touches. -/
structure World where
  invitations : List Invitation
  users : List User
deriving DecidableEq, Repr

/-- The `registerUser` action: validate the invitation, check the email
matches, create the user, and only then mark the invitation used. -/
def registerUser (w : World) (now newId : Nat) (input : RegisterInput) :
    RegisterOutcome × World :=
  match validateInvitation w.invitations now input.token with
  | none => (.failure .invalidInvitation, w)
  | some invitation =>
    if invitation.email != input.email then (.failure .emailMismatch, w)
    else
      match createUser w.users newId input.name input.email input.password
          (roleOfInvite invitation.role)
          (if invitation.role == .seller then invitation.createdBy else none) with
      | .error e => (.failure e, w)
      | .ok (_, users2) =>
        (.success,
          { invitations := markInvitationAsUsed w.invitations invitation.id now
            users := users2 })

/-! ### The per-user uniqueness invariant state machine (C8) -/

/-- How many settings documents a user has in the store. -/
def countForUser (store : List Setting) (uid : Nat) : Nat :=
  store.countP (fun s => s.user == uid)

/-- The invariant: no user ever has two settings documents. -/
def atMostOnePerUser (store : List Setting) : Prop :=
  ∀ uid, countForUser store uid ≤ 1

/-- The operations the application performs on the settings collection. -/
inductive SettingsOp where
  | getOp (uid newId : Nat)
  | updateOp (uid newId : Nat) (data : SettingsPatch)
  | updateColsOp (uid newId : Nat) (t : TableName) (cols : List String)

/-- Run one settings operation; an error leaves the store untouched. -/
def runOp (store : List Setting) : SettingsOp → List Setting
  | .getOp uid newId =>
    match getSettings store uid newId with
    | .ok (_, store2) => store2
    | .error _ => store
  | .updateOp uid newId data =>
    match updateSettings store uid newId data with
    | .ok (_, store2) => store2
    | .error _ => store
  | .updateColsOp uid newId t cols =>
    match updateTableColumns store uid newId t cols with
    | .ok (_, store2) => store2
    | .error _ => store

/-- Every store reachable from the empty store by a sequence of operations. -/
def runOps (ops : List SettingsOp) : List Setting := ops.foldl runOp []

/-! ### Concrete demo documents used by the witnesses -/

/-- A settings document storing `["name","price"]` for the products table. -/
def demoStoredSetting : Setting :=
  { id := 1, user := 1,
    productsColumns := some [ColumnItem.mk "name", ColumnItem.mk "price"] }

/-- A seller whose linking `owner` field points at user 1. -/
def demoSeller : User :=
  { id := 2, name := "s", email := "s@example.com", password := "pw",
    role := Role.seller, owner := some 1 }

/-- An admin user for the access-control witness. -/
def demoAdmin : User :=
  { id := 1, name := "a", email := "a@example.com", password := "pw",
    role := Role.admin }

/-- A product owned by user 2 (the demo seller's own id). -/
def demoProductOwnedBySeller : Product :=
  { id := 10, name := "p", code := "c1", owner := 2 }

/-- A settings record for user 1 created by a concurrent request. -/
def concurrentSetting : Setting := { id := 0, user := 1 }

/-- A stored settings record for user 1 holding one products column. -/
def demoBaseSetting : Setting :=
  { id := 0, user := 1, productsColumns := some [ColumnItem.mk "name"] }

/-- An invitation whose 7-day window has passed by time 100. -/
def expiredInvitation : Invitation :=
  { id := 1, email := "e@example.com", role := InviteRole.seller, token := "tk",
    createdBy := some 1, expiresAt := 50, usedAt := none }

/-- A world holding only the expired invitation. -/
def expiredWorld : World := { invitations := [expiredInvitation], users := [] }

/-- A registration attempt quoting the token `tk`. -/
def demoRegInput : RegisterInput :=
  { name := "nn", email := "e@example.com", password := "secret", token := "tk" }

/-- A still-live invitation for the same token. -/
def liveInvitation : Invitation :=
  { id := 1, email := "e@example.com", role := InviteRole.owner, token := "tk",
    createdBy := none, expiresAt := 1000, usedAt := none }

/-- A world holding only the live invitation. -/
def liveWorld : World := { invitations := [liveInvitation], users := [] }

/-- The world after the demo registration succeeds: the invitation is marked
used at time 10 and the new owner account exists. -/
def usedLiveWorld : World :=
  { invitations := [{ liveInvitation with usedAt := some 10 }],
    users := [{ id := 42, name := "nn", email := "e@example.com",
                password := "secret", role := Role.owner }] }

/-! ### Shared helper lemmas -/

lemma DEFAULT_COLUMNS_ne_nil (t : TableName) : DEFAULT_COLUMNS t ≠ [] := by
  cases t <;> decide

lemma getVisibleColumns_ne_nil (settings : Option Setting) (t : TableName) :
    getVisibleColumns settings t ≠ [] := by
  cases settings with
  | none => exact DEFAULT_COLUMNS_ne_nil t
  | some s =>
    cases h : columnsOf s t with
    | none => simpa [getVisibleColumns, h] using DEFAULT_COLUMNS_ne_nil t
    | some arr =>
      by_cases he : arr.isEmpty
      · simpa [getVisibleColumns, h, he] using DEFAULT_COLUMNS_ne_nil t
      · have harr : arr ≠ [] := by
          intro hnil
          exact he (by simp [hnil])
        simp [getVisibleColumns, h, he]
        intro hmap
        exact harr hmap

lemma hasSettings_false_of_find_none {store : List Setting} {uid : Nat}
    (h : findSettings store uid = none) :
    store.any (fun s => s.user == uid) = false := by
  cases hany : store.any (fun s => s.user == uid) with
  | false => rfl
  | true =>
    obtain ⟨s, hs, hp⟩ := List.any_eq_true.mp hany
    exact absurd hp (List.find?_eq_none.mp h s hs)

lemma getSettings_eq (store : List Setting) (uid newId : Nat) :
    getSettings store uid newId =
      match findSettings store uid with
      | some d => .ok (d, store)
      | none =>
        .ok (defaultSettingsRecord uid newId, store ++ [defaultSettingsRecord uid newId]) := by
  cases h : findSettings store uid with
  | some d => simp [getSettings, h]
  | none => simp [getSettings, h, createSettings, hasSettings_false_of_find_none h]

lemma getItemsPerPage_of_stored_ten (s : Setting) (h : s.itemsPerPage = some "10") :
    getItemsPerPage (some s) = 10 := by
  simp only [getItemsPerPage, h]
  decide

lemma setTableColumnsOn_user (s : Setting) (t : TableName) (arr : List ColumnItem) :
    (setTableColumnsOn s t arr).user = s.user := by
  cases t <;> rfl

lemma applyPatch_user (p : SettingsPatch) (s : Setting) :
    (applyPatch p s).user = s.user := rfl

lemma setTableColumnsOn_id (s : Setting) (t : TableName) (arr : List ColumnItem) :
    (setTableColumnsOn s t arr).id = s.id := by
  cases t <;> rfl

lemma findSettings_payloadUpdate (store : List Setting) (uid id : Nat)
    (f : Setting → Setting) (hf : ∀ s, (f s).user = s.user) :
    findSettings (payloadUpdate store id f) uid
      = (findSettings store uid).map (fun s => if s.id == id then f s else s) := by
  unfold findSettings payloadUpdate
  rw [List.find?_map]
  have hp : ((fun s => s.user == uid) ∘ fun s => if s.id == id then f s else s)
      = fun s => s.user == uid := by
    funext s
    by_cases h : s.id == id <;> simp [Function.comp, h, hf]
  rw [hp]

/-! ### Claim theorems -/

/-- C3: `getVisibleColumns` returns exactly the stored column list when one is
stored and non-empty, and the built-in default column list when the record is
null or the stored list is absent or empty. -/
theorem getVisibleColumns_stored_or_default (s : Setting) (t : TableName) :
    getVisibleColumns none t = DEFAULT_COLUMNS t
    ∧ (columnsOf s t = none → getVisibleColumns (some s) t = DEFAULT_COLUMNS t)
    ∧ (columnsOf s t = some [] → getVisibleColumns (some s) t = DEFAULT_COLUMNS t)
    ∧ ∀ arr, columnsOf s t = some arr → arr ≠ [] →
        getVisibleColumns (some s) t = arr.map (fun item => item.column) := by
  refine ⟨rfl, ?_, ?_, ?_⟩
  · intro h; simp [getVisibleColumns, h]
  · intro h; simp [getVisibleColumns, h]
  · intro arr h hne
    have hem : arr.isEmpty = false := by
      cases arr with
      | nil => exact absurd rfl hne
      | cons a l => rfl
    simp [getVisibleColumns, h, hem]

/-- C3 witness: with stored list `["name","price"]` for products the function
returns exactly `["name","price"]`, not the default. -/
theorem getVisibleColumns_stored_or_default_witness :
    getVisibleColumns (some demoStoredSetting) TableName.products = ["name", "price"] :=
  (getVisibleColumns_stored_or_default demoStoredSetting TableName.products).2.2.2
    [ColumnItem.mk "name", ColumnItem.mk "price"] rfl (by decide)

/-- C9: for every settings value (including none) and table, the visible-column
list is non-empty, and hence every field of `getAllColumnsConfig` is a
non-empty list. -/
theorem visibleColumns_never_empty (settings : Option Setting) (t : TableName) :
    getVisibleColumns settings t ≠ []
    ∧ (getAllColumnsConfig settings).products ≠ []
    ∧ (getAllColumnsConfig settings).clients ≠ []
    ∧ (getAllColumnsConfig settings).sales ≠ []
    ∧ (getAllColumnsConfig settings).assignments ≠ []
    ∧ (getAllColumnsConfig settings).history ≠ []
    ∧ (getAllColumnsConfig settings).sellers ≠ [] :=
  ⟨getVisibleColumns_ne_nil settings t,
   getVisibleColumns_ne_nil settings .products,
   getVisibleColumns_ne_nil settings .clients,
   getVisibleColumns_ne_nil settings .sales,
   getVisibleColumns_ne_nil settings .assignments,
   getVisibleColumns_ne_nil settings .history,
   getVisibleColumns_ne_nil settings .sellers⟩

/-- C7: on create, the `beforeValidate` hook stamps the invitation with the
server-generated token and an expiry of exactly 7 days (in milliseconds) after
the creation time, and the invitation role type admits exactly the two values
`owner` and `seller`. -/
theorem invitation_creation_stamps (now : Nat) (tok : String) (d : InvitationDraft) :
    (invitationBeforeValidate now tok .create d).expiresAt
        = some (now + 7 * 24 * 60 * 60 * 1000)
    ∧ (invitationBeforeValidate now tok .create d).token = some tok
    ∧ ∀ r : InviteRole, r = InviteRole.owner ∨ r = InviteRole.seller := by
  refine ⟨rfl, rfl, ?_⟩
  intro r
  cases r
  · exact Or.inl rfl
  · exact Or.inr rfl

/-- C2 counterexample: the seller read filter on products compares the record's
`owner` field with the seller's own id, not with the seller's linked owner id:
a product whose `owner` is the seller's own id (2) is returned even though the
linked owner id is 1, and a product owned by the linked owner (1) is not
returned. -/
theorem seller_read_filter_counterexample :
    demoSeller.role = Role.seller
    ∧ demoSeller.owner = some 1
    ∧ (productsReadAccess (some demoSeller)).allows
        { id := 10, name := "p", code := "c1", owner := 2 } = true
    ∧ (2 : Nat) ≠ 1
    ∧ (productsReadAccess (some demoSeller)).allows
        { id := 11, name := "q", code := "c2", owner := 1 } = false := by
  refine ⟨rfl, rfl, rfl, by decide, rfl⟩

/-- C2 amended: an admin's read is unrestricted; every other authenticated
user's read filter on products matches records whose `owner` field equals that
user's own id (for sellers as well, not the linked owner id); on the users
collection an owner sees themselves and the users linked to them, while a
seller sees only their own record; unauthenticated reads are denied. -/
theorem read_access_by_role (u : User) (p : Product) (target : User) :
    (productsReadAccess none).allows p = false
    ∧ (usersReadAccess none).allows target = false
    ∧ (productsReadAccess (some u)).allows p
        = (u.role == Role.admin || p.owner == u.id)
    ∧ (u.role = Role.admin → (usersReadAccess (some u)).allows target = true)
    ∧ (u.role = Role.owner → (usersReadAccess (some u)).allows target
        = (target.id == u.id || target.owner == some u.id))
    ∧ (u.role = Role.seller → (usersReadAccess (some u)).allows target
        = (target.id == u.id)) := by
  refine ⟨rfl, rfl, ?_, ?_, ?_, ?_⟩
  · cases hr : u.role <;> simp [productsReadAccess, ReadAccess.allows, hr]
  · intro hr; simp [usersReadAccess, ReadAccess.allows, hr]
  · intro hr; simp [usersReadAccess, ReadAccess.allows, hr]
  · intro hr; simp [usersReadAccess, ReadAccess.allows, hr]

/-- C2 amended witness: an admin read on the users collection sees an unrelated
user's record. -/
theorem read_access_by_role_witness :
    (usersReadAccess (some demoAdmin)).allows demoSeller = true :=
  (read_access_by_role demoAdmin demoProductOwnedBySeller demoSeller).2.2.2.1 rfl

/-- C1: when the initial find sees no settings record, `getSettings` attempts
the default-seeded create; if a concurrent writer made the create fail, the
retry find's result is returned instead of the error, and the create error is
re-thrown only when the retry find also comes back empty. -/
theorem getSettings_race_recovery (s0 s1 s2 : List Setting) (uid newId : Nat)
    (h0 : findSettings s0 uid = none) :
    (s1.any (fun s => s.user == uid) = false →
        getSettingsRace s0 s1 s2 uid newId = .ok (defaultSettingsRecord uid newId))
    ∧ ∀ e, createSettings s1 uid newId = .error e →
        (∀ d, findSettings s2 uid = some d →
            getSettingsRace s0 s1 s2 uid newId = .ok d)
        ∧ (findSettings s2 uid = none →
            getSettingsRace s0 s1 s2 uid newId = .error e) := by
  constructor
  · intro hany
    simp [getSettingsRace, h0, createSettings, hany]
  · intro e he
    constructor
    · intro d hd
      simp [getSettingsRace, h0, he, hd]
    · intro hn
      simp [getSettingsRace, h0, he, hn]

/-- C1 witness: the initial find sees nothing, the create hits the uniqueness
violation because a concurrent request inserted a record, and the retry find
returns that record. -/
theorem getSettings_race_recovery_witness :
    getSettingsRace [] [concurrentSetting] [concurrentSetting] 1 5
      = .ok concurrentSetting :=
  ((getSettings_race_recovery [] [concurrentSetting] [concurrentSetting] 1 5 rfl).2
    CreateError.uniqueViolation rfl).1 concurrentSetting rfl

/-- C5: for a user with no prior settings record, `getSettings` returns the
default-seeded record: every table's visible columns equal the built-in
defaults and the items-per-page preference equals the default page size. -/
theorem first_access_returns_defaults (store : List Setting) (uid newId : Nat)
    (h : findSettings store uid = none) :
    getSettings store uid newId
        = .ok (defaultSettingsRecord uid newId, store ++ [defaultSettingsRecord uid newId])
    ∧ (∀ t, getVisibleColumns (some (defaultSettingsRecord uid newId)) t
        = DEFAULT_COLUMNS t)
    ∧ getItemsPerPage (some (defaultSettingsRecord uid newId)) = DEFAULT_ITEMS_PER_PAGE
    ∧ DEFAULT_ITEMS_PER_PAGE = 10 := by
  refine ⟨?_, ?_, ?_, rfl⟩
  · simp [getSettings, h, createSettings, hasSettings_false_of_find_none h]
  · intro t
    cases t <;> rfl
  · exact getItemsPerPage_of_stored_ten (defaultSettingsRecord uid newId) rfl

/-- C5 witness: first access on an empty store for user 3. -/
theorem first_access_returns_defaults_witness :
    getSettings [] 3 7 = .ok (defaultSettingsRecord 3 7, [defaultSettingsRecord 3 7])
    ∧ getVisibleColumns (some (defaultSettingsRecord 3 7)) TableName.products
        = DEFAULT_COLUMNS TableName.products :=
  ⟨(first_access_returns_defaults [] 3 7 rfl).1,
   (first_access_returns_defaults [] 3 7 rfl).2.1 TableName.products⟩

/-- C10: the action rejects, before any write, a request containing a column
that is not among the fixed allowed columns for the named table, and every
accepted request's columns all belong to that table's allowed set. -/
theorem action_rejects_unknown_columns (store : List Setting) (uid newId : Nat)
    (input : UpdateTableColumnsInput) :
    ((∃ c ∈ input.columns, (TABLE_COLUMNS input.tableName).contains c = false) →
        updateTableColumnsAction store (some uid) newId input
            = .error ActionError.invalidColumnsForTable
        ∧ storeAfterAction store (some uid) newId input = store)
    ∧ ∀ r, updateTableColumnsAction store (some uid) newId input = .ok r →
        ∀ c ∈ input.columns, (TABLE_COLUMNS input.tableName).contains c = true := by
  constructor
  · rintro ⟨c, hc, hnc⟩
    have hschema : updateTableColumnsSchemaOk input = true := by
      have hlen : 0 < input.columns.length := List.length_pos_of_mem hc
      simp [updateTableColumnsSchemaOk]
      exact hlen
    have hval : validateColumnsForTable input.tableName input.columns = false := by
      cases hv : validateColumnsForTable input.tableName input.columns with
      | false => rfl
      | true =>
        have := List.all_eq_true.mp hv c hc
        rw [hnc] at this
        exact absurd this (by decide)
    constructor
    · simp [updateTableColumnsAction, hschema, hval]
    · simp [storeAfterAction, updateTableColumnsAction, hschema, hval]
  · intro r hr c hc
    cases hschema : updateTableColumnsSchemaOk input with
    | false => simp [updateTableColumnsAction, hschema] at hr
    | true =>
      cases hval : validateColumnsForTable input.tableName input.columns with
      | false => simp [updateTableColumnsAction, hschema, hval] at hr
      | true => exact List.all_eq_true.mp hval c hc

/-- C10 witness: a request naming the unknown column `bogus` for the products
table is rejected with the invalid-columns error and leaves the store alone. -/
theorem action_rejects_unknown_columns_witness :
    updateTableColumnsAction [] (some 1) 7
        { tableName := TableName.products, columns := ["bogus"] }
      = .error ActionError.invalidColumnsForTable :=
  ((action_rejects_unknown_columns [] 1 7
      { tableName := TableName.products, columns := ["bogus"] }).1 (by decide)).1

lemma columnsOf_setTableColumnsOn_self (s : Setting) (t : TableName)
    (arr : List ColumnItem) :
    columnsOf (setTableColumnsOn s t arr) t = some arr := by
  cases t <;> rfl

lemma columnsOf_setTableColumnsOn_other (s : Setting) (t t2 : TableName)
    (arr : List ColumnItem) (h : t2 ≠ t) :
    columnsOf (setTableColumnsOn s t arr) t2 = columnsOf s t2 := by
  cases t <;> cases t2 <;> first
    | exact absurd rfl h
    | rfl

/-- C4: with a settings record already stored, an empty column list is rejected
by the schema before any write (the store, and hence the stored list, is
untouched), while a non-empty valid list replaces the stored list for exactly
the requested table and leaves every other table's list as it was. -/
theorem setColumns_empty_rejected_valid_replaces (store : List Setting)
    (uid newId : Nat) (s : Setting) (input : UpdateTableColumnsInput)
    (hfind : findSettings store uid = some s) :
    (input.columns = [] →
        updateTableColumnsAction store (some uid) newId input
            = .error ActionError.validationFailed
        ∧ storeAfterAction store (some uid) newId input = store)
    ∧ (input.columns ≠ [] →
       validateColumnsForTable input.tableName input.columns = true →
        updateTableColumnsAction store (some uid) newId input
            = .ok (setTableColumnsOn s input.tableName (input.columns.map ColumnItem.mk),
                payloadUpdate store s.id
                  (fun d => setTableColumnsOn d input.tableName
                    (input.columns.map ColumnItem.mk)))
        ∧ findSettings (storeAfterAction store (some uid) newId input) uid
            = some (setTableColumnsOn s input.tableName (input.columns.map ColumnItem.mk))
        ∧ columnsOf (setTableColumnsOn s input.tableName (input.columns.map ColumnItem.mk))
            input.tableName = some (input.columns.map ColumnItem.mk)
        ∧ ∀ t2, t2 ≠ input.tableName →
            columnsOf (setTableColumnsOn s input.tableName (input.columns.map ColumnItem.mk)) t2
              = columnsOf s t2) := by
  constructor
  · intro hempty
    have hschema : updateTableColumnsSchemaOk input = false := by
      simp [updateTableColumnsSchemaOk, hempty]
    constructor
    · simp [updateTableColumnsAction, hschema]
    · simp [storeAfterAction, updateTableColumnsAction, hschema]
  · intro hne hval
    have hschema : updateTableColumnsSchemaOk input = true := by
      simp [updateTableColumnsSchemaOk]
      exact List.length_pos.mpr hne
    have haction : updateTableColumnsAction store (some uid) newId input
        = .ok (setTableColumnsOn s input.tableName (input.columns.map ColumnItem.mk),
            payloadUpdate store s.id
              (fun d => setTableColumnsOn d input.tableName
                (input.columns.map ColumnItem.mk))) := by
      simp [updateTableColumnsAction, hschema, hval, updateTableColumns,
        getSettings, hfind]
    refine ⟨haction, ?_, columnsOf_setTableColumnsOn_self s input.tableName _,
      fun t2 h2 => columnsOf_setTableColumnsOn_other s input.tableName t2 _ h2⟩
    have hstore : storeAfterAction store (some uid) newId input
        = payloadUpdate store s.id
            (fun d => setTableColumnsOn d input.tableName
              (input.columns.map ColumnItem.mk)) := by
      simp [storeAfterAction, haction]
    rw [hstore,
      findSettings_payloadUpdate store uid s.id _
        (fun d => setTableColumnsOn_user d input.tableName _), hfind]
    simp

/-- C4 witness: on a store holding a record for user 1, the empty list is
rejected and the valid list `["name","price"]` is written for products only. -/
theorem setColumns_empty_rejected_valid_replaces_witness :
    (updateTableColumnsAction [demoBaseSetting] (some 1) 9
        { tableName := TableName.products, columns := [] }
      = .error ActionError.validationFailed)
    ∧ columnsOf (setTableColumnsOn demoBaseSetting TableName.products
          (["name", "price"].map ColumnItem.mk)) TableName.products
        = some (["name", "price"].map ColumnItem.mk) :=
  ⟨((setColumns_empty_rejected_valid_replaces [demoBaseSetting] 1 9 demoBaseSetting
      { tableName := TableName.products, columns := [] } rfl).1 rfl).1,
   (((setColumns_empty_rejected_valid_replaces [demoBaseSetting] 1 9 demoBaseSetting
      { tableName := TableName.products, columns := ["name", "price"] } rfl).2
      (by decide) (by decide)).2.2.1)⟩

/-- C6: registration fails, touching neither users nor invitations, when every
invitation carrying the submitted token is already used or expired (in
particular when no invitation carries it), or when the matched invitation's
recorded email differs from the submitted one; and after a successful
registration the consumed token no longer validates at any time. -/
theorem registration_guards (w : World) (now newId : Nat) (input : RegisterInput) :
    ((∀ inv ∈ w.invitations, inv.token = input.token →
        inv.usedAt ≠ none ∨ ¬ now < inv.expiresAt) →
      registerUser w now newId input = (.failure .invalidInvitation, w))
    ∧ (∀ inv, validateInvitation w.invitations now input.token = some inv →
        inv.email ≠ input.email →
        registerUser w now newId input = (.failure .emailMismatch, w))
    ∧ ∀ w2, (∀ i1 ∈ w.invitations, ∀ i2 ∈ w.invitations,
          i1.token = i2.token → i1.id = i2.id) →
        registerUser w now newId input = (.success, w2) →
        ∀ now2, validateInvitation w2.invitations now2 input.token = none := by
  refine ⟨?_, ?_, ?_⟩
  · intro h
    have hv : validateInvitation w.invitations now input.token = none := by
      unfold validateInvitation
      rw [List.find?_eq_none]
      intro i hi hp
      simp only [Bool.and_eq_true, beq_iff_eq, Option.isNone_iff_eq_none,
        decide_eq_true_eq] at hp
      obtain ⟨⟨htok, hused⟩, hexp⟩ := hp
      rcases h i hi htok with hc | hc
      · exact hc hused
      · exact hc hexp
    simp [registerUser, hv]
  · intro inv hv hne
    have hbne : (inv.email != input.email) = true := bne_iff_ne.mpr hne
    simp [registerUser, hv, hbne]
  · intro w2 huniq hreg now2
    cases hv : validateInvitation w.invitations now input.token with
    | none => simp [registerUser, hv] at hreg
    | some inv =>
      have hmem := List.mem_of_find?_eq_some hv
      have hpred := List.find?_some hv
      simp only [Bool.and_eq_true, beq_iff_eq, Option.isNone_iff_eq_none,
        decide_eq_true_eq] at hpred
      obtain ⟨⟨htok, hused⟩, hexp⟩ := hpred
      by_cases hmail : (inv.email != input.email) = true
      · simp [registerUser, hv, hmail] at hreg
      · have hmail2 : (inv.email != input.email) = false := by
          cases hb : (inv.email != input.email) with
          | false => rfl
          | true => exact absurd hb hmail
        have hrun : registerUser w now newId input =
            match createUser w.users newId input.name input.email input.password
                (roleOfInvite inv.role)
                (if inv.role == InviteRole.seller then inv.createdBy else none) with
            | .error e => (.failure e, w)
            | .ok (_, users2) =>
              (.success,
                { invitations := markInvitationAsUsed w.invitations inv.id now
                  users := users2 }) := by
          simp [registerUser, hv, hmail2]
        rw [hrun] at hreg
        cases hcreate : createUser w.users newId input.name input.email input.password
            (roleOfInvite inv.role)
            (if inv.role == InviteRole.seller then inv.createdBy else none) with
        | error e =>
          rw [hcreate] at hreg
          simp at hreg
        | ok res =>
          obtain ⟨newUser, users2⟩ := res
          rw [hcreate] at hreg
          simp only [Prod.mk.injEq] at hreg
          obtain ⟨-, hw2⟩ := hreg
          subst hw2
          unfold validateInvitation markInvitationAsUsed
          rw [List.find?_eq_none]
          intro j hj hp
          obtain ⟨i, hi, rfl⟩ := List.mem_map.mp hj
          by_cases hid : (i.id == inv.id) = true
          · simp [hid] at hp
          · simp only [hid, if_false, Bool.false_eq_true] at hp
            simp only [Bool.and_eq_true, beq_iff_eq, Option.isNone_iff_eq_none,
              decide_eq_true_eq] at hp
            obtain ⟨⟨htok2, _⟩, _⟩ := hp
            exact hid (beq_iff_eq.mpr (huniq i hi inv hmem (htok2.trans htok.symm)))

/-- C6 witness: registering against the expired invitation fails and changes
nothing, and after a successful registration the same token no longer
validates. -/
theorem registration_guards_witness :
    registerUser expiredWorld 100 5 demoRegInput
        = (.failure .invalidInvitation, expiredWorld)
    ∧ validateInvitation usedLiveWorld.invitations 10 "tk" = none :=
  ⟨(registration_guards expiredWorld 100 5 demoRegInput).1 (by decide),
   (registration_guards liveWorld 10 42 demoRegInput).2.2 usedLiveWorld
     (by decide) (by decide) 10⟩

lemma countForUser_zero_of_find_none {store : List Setting} {uid : Nat}
    (h : findSettings store uid = none) : countForUser store uid = 0 := by
  unfold countForUser
  rw [List.countP_eq_zero]
  intro s hs
  exact List.find?_eq_none.mp h s hs

lemma countForUser_payloadUpdate (store : List Setting) (id : Nat)
    (f : Setting → Setting) (hf : ∀ s, (f s).user = s.user) (u : Nat) :
    countForUser (payloadUpdate store id f) u = countForUser store u := by
  unfold countForUser payloadUpdate
  rw [List.countP_map]
  have hp : ((fun s => s.user == u) ∘ fun s => if s.id == id then f s else s)
      = fun s => s.user == u := by
    funext s
    by_cases h : s.id == id <;> simp [Function.comp, h, hf]
  rw [hp]

lemma atMostOnePerUser_insertDefault {store : List Setting} (uid newId : Nat)
    (h : atMostOnePerUser store) (hf : findSettings store uid = none) :
    atMostOnePerUser (store ++ [defaultSettingsRecord uid newId]) := by
  intro u
  unfold countForUser
  rw [List.countP_append]
  by_cases hu : uid = u
  · subst hu
    have h0 := countForUser_zero_of_find_none hf
    unfold countForUser at h0
    rw [h0]
    simp [List.countP_cons, defaultSettingsRecord]
  · have h1 := h u
    unfold countForUser at h1
    have hne : ((defaultSettingsRecord uid newId).user == u) = false := by
      simp [defaultSettingsRecord]
      exact hu
    simpa [List.countP_cons, hne] using h1

lemma runOp_preserves (store : List Setting) (op : SettingsOp)
    (h : atMostOnePerUser store) : atMostOnePerUser (runOp store op) := by
  cases op with
  | getOp uid newId =>
    show atMostOnePerUser
      (match getSettings store uid newId with
        | .ok (_, store2) => store2
        | .error _ => store)
    rw [getSettings_eq store uid newId]
    cases hf : findSettings store uid with
    | some d => exact h
    | none => exact atMostOnePerUser_insertDefault uid newId h hf
  | updateOp uid newId data =>
    show atMostOnePerUser
      (match updateSettings store uid newId data with
        | .ok (_, store2) => store2
        | .error _ => store)
    unfold updateSettings
    rw [getSettings_eq store uid newId]
    cases hf : findSettings store uid with
    | some d =>
      intro u
      rw [show (match (.ok (applyPatch data d, payloadUpdate store d.id (applyPatch data)) :
            Except CreateError (Setting × List Setting)) with
          | .ok (_, store2) => store2
          | .error _ => store) = payloadUpdate store d.id (applyPatch data) from rfl]
      rw [countForUser_payloadUpdate store d.id (applyPatch data) (applyPatch_user data) u]
      exact h u
    | none =>
      intro u
      have hbase := atMostOnePerUser_insertDefault uid newId h hf
      rw [show (match (.ok (applyPatch data (defaultSettingsRecord uid newId),
            payloadUpdate (store ++ [defaultSettingsRecord uid newId])
              (defaultSettingsRecord uid newId).id (applyPatch data)) :
            Except CreateError (Setting × List Setting)) with
          | .ok (_, store2) => store2
          | .error _ => store)
          = payloadUpdate (store ++ [defaultSettingsRecord uid newId])
              (defaultSettingsRecord uid newId).id (applyPatch data) from rfl]
      rw [countForUser_payloadUpdate _ _ (applyPatch data) (applyPatch_user data) u]
      exact hbase u
  | updateColsOp uid newId t cols =>
    show atMostOnePerUser
      (match updateTableColumns store uid newId t cols with
        | .ok (_, store2) => store2
        | .error _ => store)
    unfold updateTableColumns
    rw [getSettings_eq store uid newId]
    cases hf : findSettings store uid with
    | some d =>
      intro u
      rw [show (match (.ok (setTableColumnsOn d t (cols.map ColumnItem.mk),
            payloadUpdate store d.id
              (fun x => setTableColumnsOn x t (cols.map ColumnItem.mk))) :
            Except CreateError (Setting × List Setting)) with
          | .ok (_, store2) => store2
          | .error _ => store)
          = payloadUpdate store d.id
              (fun x => setTableColumnsOn x t (cols.map ColumnItem.mk)) from rfl]
      rw [countForUser_payloadUpdate store d.id _
        (fun x => setTableColumnsOn_user x t (cols.map ColumnItem.mk)) u]
      exact h u
    | none =>
      intro u
      have hbase := atMostOnePerUser_insertDefault uid newId h hf
      rw [show (match (.ok (setTableColumnsOn (defaultSettingsRecord uid newId) t
              (cols.map ColumnItem.mk),
            payloadUpdate (store ++ [defaultSettingsRecord uid newId])
              (defaultSettingsRecord uid newId).id
              (fun x => setTableColumnsOn x t (cols.map ColumnItem.mk))) :
            Except CreateError (Setting × List Setting)) with
          | .ok (_, store2) => store2
          | .error _ => store)
          = payloadUpdate (store ++ [defaultSettingsRecord uid newId])
              (defaultSettingsRecord uid newId).id
              (fun x => setTableColumnsOn x t (cols.map ColumnItem.mk)) from rfl]
      rw [countForUser_payloadUpdate _ _ _
        (fun x => setTableColumnsOn_user x t (cols.map ColumnItem.mk)) u]
      exact hbase u

/-- C8: every store reachable from the empty store through any sequence of
`getSettings` / `updateSettings` / `updateTableColumns` operations holds at
most one settings document per user: creation happens lazily only when the
first read finds none, and both update operations rewrite the fetched document
in place. -/
theorem settings_at_most_one_per_user (ops : List SettingsOp) :
    atMostOnePerUser (runOps ops) := by
  have hgen : ∀ st, atMostOnePerUser st → atMostOnePerUser (List.foldl runOp st ops) := by
    induction ops with
    | nil => intro st hst; exact hst
    | cons op rest ih =>
      intro st hst
      exact ih (runOp st op) (runOp_preserves st op hst)
  exact hgen [] (fun u => by simp [countForUser])

end StockFlow
